import Mathlib

/-!
Shallow embedding of the `canvas` crate (a pan/zoom viewport and coordinate
transform engine for a GUI canvas widget) over exact rational arithmetic.

Modelling conventions:
* `f32`/`f64` values are modelled as `ℚ`; floating-point rounding is ignored,
  so every stated equality is exact (this realises the spec's "within
  floating-point tolerance" as exact equality of the ideal real computation).
  Division is the total field division of `ℚ` (`x / 0 = 0`); places where the
  source can divide by zero are tracked explicitly where a claim needs it.
* `egui::Pos2`, `egui::Vec2` and `simple_math::Vec2` are modelled as pairs of
  rationals; the vector arithmetic of the source is expanded componentwise.
* Rust `while` loops are modelled as structurally recursive functions with an
  explicit fuel parameter returning `Option` (`none` = the loop has not
  finished within `fuel` iterations); lemmas relate fuel to termination.
* `f32::powf` (used once, for `0.9f32.powf(scroll_delta_y / 50.0)`) is
  transcendental and not representable in `ℚ`; the state-update function takes
  the power function as an explicit parameter `powQ`, and theorems assume only
  what real exponentiation guarantees (the result is positive).
-/

/-- Model of `egui::Pos2` (also used for `egui::Vec2` values that the source
converts to and from positions via `to_vec2`/`to_pos2`). -/
structure Pos2 where
  x : ℚ
  y : ℚ

/-- Model of `simple_math::Vec2` (used for padding and scaling factors) and of
`egui::Vec2` translation deltas. -/
structure Vec2 where
  x : ℚ
  y : ℚ

/-- Model of `egui::Rect`: an axis-aligned rectangle given by two corners. -/
structure Rect where
  min : Pos2
  max : Pos2

def Rect.width (r : Rect) : ℚ := r.max.x - r.min.x

def Rect.height (r : Rect) : ℚ := r.max.y - r.min.y

/-- `egui::Rect::aspect_ratio = width / height`. -/
def Rect.aspect_ratio (r : Rect) : ℚ := r.width / r.height

/-- `egui::Rect::shrink(amount)`: move both corners inward by `amount`. -/
def Rect.shrink (r : Rect) (amount : ℚ) : Rect :=
  ⟨⟨r.min.x + amount, r.min.y + amount⟩, ⟨r.max.x - amount, r.max.y - amount⟩⟩

/-- `egui::Rect::size` as a vector `(width, height)`. -/
def Rect.size (r : Rect) : Vec2 := ⟨r.width, r.height⟩

/-- `egui::Rect::translate(amount)`: move both corners by `amount`. -/
def Rect.translate (r : Rect) (amount : Vec2) : Rect :=
  ⟨⟨r.min.x + amount.x, r.min.y + amount.y⟩, ⟨r.max.x + amount.x, r.max.y + amount.y⟩⟩

/-- `egui::Rect::from_min_size(min, size)`. -/
def Rect.from_min_size (p : Pos2) (s : Vec2) : Rect :=
  ⟨p, ⟨p.x + s.x, p.y + s.y⟩⟩

/-- `egui::Rect::from_two_pos(a, b)`: the normalized rectangle spanned by two
corner points. -/
def Rect.from_two_pos (a b : Pos2) : Rect :=
  ⟨⟨Min.min a.x b.x, Min.min a.y b.y⟩, ⟨Max.max a.x b.x, Max.max a.y b.y⟩⟩

/-- `egui::Rect::union`. -/
def Rect.union (r s : Rect) : Rect :=
  ⟨⟨Min.min r.min.x s.min.x, Min.min r.min.y s.min.y⟩,
   ⟨Max.max r.max.x s.max.x, Max.max r.max.y s.max.y⟩⟩

/-- `egui::Rect::contains(p)` (inclusive on all four sides). -/
def Rect.contains (r : Rect) (p : Pos2) : Bool :=
  decide (r.min.x ≤ p.x) && decide (p.x ≤ r.max.x) &&
  decide (r.min.y ≤ p.y) && decide (p.y ≤ r.max.y)

/-- `const MIN_PADDING: f32 = 20.0` from `src/position.rs`. -/
def MIN_PADDING : ℚ := 20

/-- The tagged position type `Position` from `src/position.rs`. -/
inductive Position where
  | Gui : Pos2 → Position
  | Overlay : Pos2 → Position
  | Canvas : Pos2 → Position

/-- `Position::get_raw_pos`. -/
def Position.get_raw_pos : Position → Pos2
  | Position.Gui pos => pos
  | Position.Overlay pos => pos
  | Position.Canvas pos => pos

/-- `Position::calculate_padding_and_scaling_factor` from `src/position.rs`
(the FitCalculator).  Returns `(padding, scaling_factor)`, both 2-D vectors.
The tuple `(x_stretch, y_stretch)` of the source is expanded into the two
components. -/
def Position.calculate_padding_and_scaling_factor
    (gui_space current_cutout : Rect) (aspect_ratio : ℚ) : Vec2 × Vec2 :=
  let ratio_trajectories := current_cutout.aspect_ratio * aspect_ratio
  let ratio_canvas := (gui_space.shrink MIN_PADDING).aspect_ratio
  let x_stretch := if 1 < aspect_ratio then aspect_ratio else 1
  let y_stretch := if 1 < aspect_ratio then 1 else 1 / aspect_ratio
  if ratio_trajectories < ratio_canvas then
    -- y-Axe is limiting
    let scaling_factor :=
      (gui_space.shrink MIN_PADDING).height / (current_cutout.height * y_stretch)
    (⟨(gui_space.width - current_cutout.width * scaling_factor * x_stretch) / 2, MIN_PADDING⟩,
     ⟨scaling_factor * x_stretch, scaling_factor * y_stretch⟩)
  else
    -- x-Axe is limiting
    let scaling_factor :=
      (gui_space.shrink MIN_PADDING).width / (current_cutout.width * x_stretch)
    (⟨MIN_PADDING, (gui_space.height - current_cutout.height * scaling_factor * y_stretch) / 2⟩,
     ⟨scaling_factor * x_stretch, scaling_factor * y_stretch⟩)

/-- `Position::to_overlay_space` from `src/position.rs`, with the vector
arithmetic (`to_vec2`, vector add/sub, componentwise scaling) expanded into
components. -/
def Position.to_overlay_space
    (self : Position) (gui_space current_cutout : Rect) (aspect_ratio : ℚ) : Pos2 :=
  let ps := Position.calculate_padding_and_scaling_factor gui_space current_cutout aspect_ratio
  let padding := ps.1
  let scaling_factor := ps.2
  match self with
  | Position.Canvas pos =>
    ⟨(pos.x - current_cutout.min.x) * scaling_factor.x + padding.x + gui_space.min.x,
     (pos.y - current_cutout.min.y) * scaling_factor.y + padding.y + gui_space.min.y⟩
  | Position.Overlay pos => pos
  | Position.Gui pos => ⟨pos.x, gui_space.max.y - pos.y + gui_space.min.y⟩

/-- `Position::to_gui_space` from `src/position.rs`.  In the source the
`Canvas` case first converts to overlay space and then applies the
`Overlay → Gui` y-flip; that one recursion step is inlined here. -/
def Position.to_gui_space
    (self : Position) (gui_space current_cutout : Rect) (aspect_ratio : ℚ) : Pos2 :=
  match self with
  | Position.Canvas _ =>
    let ov := self.to_overlay_space gui_space current_cutout aspect_ratio
    ⟨ov.x, gui_space.max.y - ov.y + gui_space.min.y⟩
  | Position.Overlay pos => ⟨pos.x, gui_space.max.y - pos.y + gui_space.min.y⟩
  | Position.Gui pos => pos

/-- `Position::to_canvas_space` from `src/position.rs`.  In the source the
`Gui` case first converts to overlay space and then applies the
`Overlay → Canvas` affine map; that one recursion step is inlined here. -/
def Position.to_canvas_space
    (self : Position) (gui_space current_cutout : Rect) (aspect_ratio : ℚ) : Pos2 :=
  let ps := Position.calculate_padding_and_scaling_factor gui_space current_cutout aspect_ratio
  let padding := ps.1
  let scaling_factor := ps.2
  match self with
  | Position.Canvas pos => pos
  | Position.Overlay pos =>
    ⟨(pos.x - padding.x - gui_space.min.x) / scaling_factor.x + current_cutout.min.x,
     (pos.y - padding.y - gui_space.min.y) / scaling_factor.y + current_cutout.min.y⟩
  | Position.Gui pos =>
    let ov := Pos2.mk pos.x (gui_space.max.y - pos.y + gui_space.min.y)
    ⟨(ov.x - padding.x - gui_space.min.x) / scaling_factor.x + current_cutout.min.x,
     (ov.y - padding.y - gui_space.min.y) / scaling_factor.y + current_cutout.min.y⟩

/-- The interaction-mode enum `CanvasMode` from `src/lib.rs`. -/
inductive CanvasMode where
  | Dragging : CanvasMode
  | Normal : CanvasMode

/-- The persistent widget state `CanvasState` from `src/lib.rs`. -/
structure CanvasState where
  current_cutout : Rect
  mode : CanvasMode
  draw_frame : Bool
  aspect_ratio : ℚ

/-- The per-frame input events consumed by `Canvas::manage_user_input`
(`src/lib.rs` lines 129-204): the space key (reset), the scroll wheel delta,
the hover position, and the egui drag lifecycle. -/
structure CanvasInput where
  space_pressed : Bool
  scroll_delta_y : ℚ
  hover_pos : Option Pos2
  drag_started : Bool
  drag_released : Bool
  drag_delta : Vec2

/-- The state-updating part of `Canvas::manage_user_input` from `src/lib.rs`
(the cursor-label painting and the final pass-through to the drawable have no
effect on `CanvasState` and are omitted).  `powQ` is the explicit model of
`f32::powf` used in `0.9_f32.powf(input.scroll_delta.y / 50.0)`;
`default_cutout` is the value `self.drawable.get_cutout(draw_data)` that a
space-key reset installs. -/
def manage_user_input (powQ : ℚ → ℚ → ℚ) (default_cutout : Rect)
    (state : CanvasState) (gui_space : Rect) (input : CanvasInput) : CanvasState :=
  match state.mode with
  | CanvasMode.Normal =>
    -- reseting
    let state :=
      if input.space_pressed then { state with current_cutout := default_cutout } else state
    -- zooming
    let state :=
      if 1 < |input.scroll_delta_y| then
        match input.hover_pos with
        | some curser_gui_pos =>
          let fix_point :=
            (Position.Gui curser_gui_pos).to_canvas_space
              gui_space state.current_cutout state.aspect_ratio
          let zoom_factor := powQ (9/10) (input.scroll_delta_y / 50)
          let inverse_zoom_factor := 1 - zoom_factor
          let offset :=
            Pos2.mk (fix_point.x * inverse_zoom_factor + zoom_factor * state.current_cutout.min.x)
                    (fix_point.y * inverse_zoom_factor + zoom_factor * state.current_cutout.min.y)
          let new_cutout :=
            Rect.from_min_size offset
              ⟨state.current_cutout.size.x * zoom_factor,
               state.current_cutout.size.y * zoom_factor⟩
          { state with current_cutout := new_cutout }
        | none => state -- curser not on screen so ignore the scroll
      else state
    -- drag detection
    if input.drag_started then
      match input.hover_pos with
      | some hover_pos =>
        if gui_space.contains hover_pos then { state with mode := CanvasMode.Dragging } else state
      | none => state
    else state
  | CanvasMode.Dragging =>
    if input.drag_released then
      { state with mode := CanvasMode.Normal }
    else
      let ps :=
        Position.calculate_padding_and_scaling_factor
          gui_space state.current_cutout state.aspect_ratio
      let scaling_factor := ps.2
      let translation_scaled :=
        Vec2.mk (input.drag_delta.x / scaling_factor.x) (input.drag_delta.y / scaling_factor.y)
      let translation_rotated := Vec2.mk (-translation_scaled.x) translation_scaled.y
      { state with current_cutout := state.current_cutout.translate translation_rotated }

/-- The `Drawable` capability trait from `src/drawable.rs`, restricted to the
one method the claims are about.  In the source `get_cutout` takes
`&mut self`; it is modelled as a pure function of the value and the draw
data. -/
class Drawable (α : Type) (D : outParam Type) where
  get_cutout : α → D → Rect

/-- `impl Drawable for ()` from `src/drawable.rs`: `get_cutout` returns the
dummy rectangle `Rect::from_two_pos((0,0), (10,10))`. -/
instance : Drawable Unit Unit where
  get_cutout _ _ := Rect.from_two_pos ⟨0, 0⟩ ⟨10, 10⟩

/-- `impl<T, D> Drawable for Vec<T>` from `src/drawable.rs`: the union of the
elements' cutouts, or the dummy rectangle when empty. -/
instance (priority := low) {α : Type} {D : Type} [Drawable α D] : Drawable (List α) D where
  get_cutout l draw_data :=
    match l with
    | [] => Rect.from_two_pos ⟨0, 0⟩ ⟨10, 10⟩ -- dummy value
    | first :: rest =>
      rest.foldl (fun acc d => acc.union (Drawable.get_cutout d draw_data))
        (Drawable.get_cutout first draw_data)

/-- `CanvasState::new` from `src/lib.rs`: the default cutout is
`().get_cutout(&())`, the mode is `Normal`. -/
def CanvasState.new : CanvasState :=
  { current_cutout := Drawable.get_cutout () ()
    mode := CanvasMode.Normal
    draw_frame := false
    aspect_ratio := 1 }

/-- `CanvasState::reset_cutout` from `src/lib.rs` (also reached through
`Canvas::reset_cutout`): set the cutout to the drawable's own cutout. -/
def CanvasState.reset_cutout {α D : Type} [Drawable α D]
    (state : CanvasState) (drawable : α) (draw_data : D) : CanvasState :=
  { state with current_cutout := Drawable.get_cutout drawable draw_data }

/-- The `Tick` specification enum from `src/utility/coordinate_system.rs`
(`Automatic`'s `u8` is modelled as `ℕ`). -/
inductive Tick where
  | Absolute : ℚ → Tick
  | Automatic : ℕ → Tick

/-- `const MIN_NUMBER_OF_TICKS: u8 = 4` from `src/utility/coordinate_system.rs`. -/
def MIN_NUMBER_OF_TICKS : ℕ := 4

/-- The candidate base ticks `[1, 2, 5, 25]` of `Tick::get_best_tick_from_big`. -/
def tick_options : List ℕ := [1, 2, 5, 25]

/-- `u64::abs_diff`. -/
def absDiff (a b : ℕ) : ℕ := if a ≤ b then b - a else a - b

/-- The body of the `for tick_option in tick_options` loop inside
`Tick::get_best_tick_from_big`: update the accumulator
`(best_tick, num_ticks_with_best_tick)` with one candidate. -/
def tickFoldStep (wanted_num_ticks min_num_ticks rest_draw_space growing_tick : ℕ)
    (acc : ℕ × ℕ) (tick_option : ℕ) : ℕ × ℕ :=
  let new_num_ticks := rest_draw_space / tick_option
  if min_num_ticks ≤ new_num_ticks ∧
      absDiff wanted_num_ticks new_num_ticks < absDiff wanted_num_ticks acc.2 then
    (growing_tick * tick_option, new_num_ticks)
  else acc

/-- The `while rest_draw_space != 0` loop of `Tick::get_best_tick_from_big`,
with explicit fuel (`none` = fuel exhausted before the loop finished; one fuel
unit is consumed per iteration). -/
def bestTickLoop (wanted_num_ticks min_num_ticks : ℕ) (fuel rest_draw_space growing_tick : ℕ)
    (acc : ℕ × ℕ) : Option (ℕ × ℕ) :=
  if rest_draw_space = 0 then some acc
  else
    match fuel with
    | 0 => none
    | fuel + 1 =>
      bestTickLoop wanted_num_ticks min_num_ticks fuel
        (rest_draw_space / 10) (growing_tick * 10)
        (tick_options.foldl
          (tickFoldStep wanted_num_ticks min_num_ticks rest_draw_space growing_tick) acc)

/-- `Tick::get_best_tick_from_big` from `src/utility/coordinate_system.rs`.
The fuel `draw_space + 1` always suffices since the remaining span is
integer-divided by 10 each round (see the loop lemmas below). -/
def get_best_tick_from_big (draw_space wanted_num_ticks : ℕ) : Option ℕ :=
  let min_num_ticks := Min.min wanted_num_ticks MIN_NUMBER_OF_TICKS
  (bestTickLoop wanted_num_ticks min_num_ticks (draw_space + 1) draw_space 1
      (1, draw_space / 1)).map Prod.fst

/-- The `while draw_space < 1000.0 * wanted_num_ticks` normalization loop of
`Tick::get_absolute_tick`, with explicit fuel.  Instead of the shrink factor
`1.0, 0.1, 0.01, ...` the number `shrink_steps` of performed divisions by 10
is tracked (the source's `tick_shrink_factor` equals `10 ^ (-shrink_steps)`
in exact arithmetic). -/
def normalizeLoop (bound : ℚ) (fuel : ℕ) (draw_space : ℚ) (shrink_steps : ℕ) :
    Option (ℚ × ℕ) :=
  if draw_space < bound then
    match fuel with
    | 0 => none
    | fuel + 1 => normalizeLoop bound fuel (draw_space * 10) (shrink_steps + 1)
  else some (draw_space, shrink_steps)

/-- `Tick::get_absolute_tick` from `src/utility/coordinate_system.rs`.  The
`f64` cast `draw_space as u64` is modelled as the natural floor; `fuel` bounds
the number of iterations of the normalization loop. -/
def Tick.get_absolute_tick (self : Tick) (fuel : ℕ) (draw_space : ℚ) : Option ℚ :=
  match self with
  | Tick.Absolute tick => some tick
  | Tick.Automatic wanted_num_ticks =>
    match normalizeLoop (1000 * (wanted_num_ticks : ℚ)) fuel |draw_space| 0 with
    | none => none
    | some (big_draw_space, shrink_steps) =>
      match get_best_tick_from_big ⌊big_draw_space⌋₊ wanted_num_ticks with
      | none => none
      | some best_tick => some ((best_tick : ℚ) / 10 ^ shrink_steps)

/-- Digit-count based floor logarithm: `natLog10Aux fuel n` counts how often
`n` can be divided by 10 before dropping below 10 (fuel `n` suffices). -/
def natLog10Aux : ℕ → ℕ → ℕ
  | 0, _ => 0
  | fuel + 1, n => if n < 10 then 0 else natLog10Aux fuel (n / 10) + 1

/-- `⌊log10 n⌋` for natural `n ≥ 1`. -/
def natLog10 (n : ℕ) : ℕ := natLog10Aux n n

/-- Model of `f32::log10().floor()` on positive rationals: the integer
`k` with `10 ^ k ≤ m < 10 ^ (k + 1)`, computed from digit counts. -/
def floorLog10 (m : ℚ) : ℤ :=
  if 1 ≤ m then (natLog10 ⌊m⌋₊ : ℤ)
  else -((natLog10 (⌈m⁻¹⌉₊ - 1) + 1 : ℕ) : ℤ)

/-- Round to nearest integer, ties to even — the rounding Rust's fixed-point
float formatting (`{:.2}`, `{:.6}`) applies to the exact value. -/
def roundHalfEven (q : ℚ) : ℤ :=
  let f := ⌊q⌋
  if q - f < 1/2 then f
  else if 1/2 < q - f then f + 1
  else if f % 2 = 0 then f else f + 1

/-- Left-pad a string with zeros to the given length. -/
def padZeros (len : ℕ) (s : String) : String :=
  String.mk (List.replicate (len - s.length) '0') ++ s

/-- Model of Rust's `format!("{q:.digits$}")` for a nonnegative rational:
round `q` to `digits` fractional digits (ties to even) and print with exactly
`digits` digits after the decimal point. -/
def formatFixed (q : ℚ) (digits : ℕ) : String :=
  let scaled := (roundHalfEven (q * 10 ^ digits)).toNat
  toString (scaled / 10 ^ digits) ++ "." ++ padZeros digits (toString (scaled % 10 ^ digits))

/-- Rust's `str::trim_end_matches('.')`: drop every trailing dot. -/
def trimTrailingDots (s : String) : String :=
  String.mk (List.reverse (List.dropWhile (fun c => c == '.') (List.reverse s.data)))

/-- `Axis::print_float` from `src/utility/coordinate_system.rs` (the
`format_number` label formatter of the spec).  `{log_10}` in the source
prints the integer-valued `f32` exponent without a decimal point, i.e. as
`toString` of the integer. -/
def Axis.print_float (float : ℚ) : String :=
  let sign := if float < 0 then "-" else ""
  let f := |float|
  if 10000 ≤ f ∨ (1/1000000 ≤ f ∧ f ≤ 1/10000) then
    let log_10 := floorLog10 f
    let new_float := f / (10 : ℚ) ^ log_10
    sign ++ formatFixed new_float 2 ++ "e" ++ toString log_10
  else if f < 1/1000000 then "0"
  else
    let s := sign ++ formatFixed f 6
    trimTrailingDots (s.take 5)

/-- Modelled from the spec: `format_number` as §4.3 of the spec words it, with
the boundary of claim C5 amended from `m < 0.0001` to `m ≤ 0.0001` (the only
change the counterexample below forces): render `"0"` for magnitudes below
`0.000001`; scientific notation (mantissa with 2 fraction digits, then `e`,
then the exponent `⌊log10 m⌋`) exactly when `m ≥ 10000` or
`0.000001 ≤ m ≤ 0.0001`; otherwise fixed-point with 6 fractional digits,
truncated to the first 5 characters with a trailing decimal point stripped. -/
def format_number_spec (x : ℚ) : String :=
  let sign := if x < 0 then "-" else ""
  let m := |x|
  if m < 1/1000000 then "0"
  else if 10000 ≤ m ∨ (1/1000000 ≤ m ∧ m ≤ 1/10000) then
    sign ++ formatFixed (m / (10 : ℚ) ^ floorLog10 m) 2 ++ "e" ++ toString (floorLog10 m)
  else trimTrailingDots ((sign ++ formatFixed m 6).take 5)

/-- Modelled from the claim's words (claim C5, as stated): like
`format_number_spec` but with the strict scientific-notation boundary
`0.000001 ≤ m < 0.0001`. -/
def format_number_claimed (x : ℚ) : String :=
  let sign := if x < 0 then "-" else ""
  let m := |x|
  if 10000 ≤ m ∨ (1/1000000 ≤ m ∧ m < 1/10000) then
    sign ++ formatFixed (m / (10 : ℚ) ^ floorLog10 m) 2 ++ "e" ++ toString (floorLog10 m)
  else if m < 1/1000000 then "0"
  else trimTrailingDots ((sign ++ formatFixed m 6).take 5)

/-! ## Helper lemmas -/

lemma shrink_width (g : Rect) : (g.shrink MIN_PADDING).width = g.width - 2 * MIN_PADDING := by
  simp only [Rect.shrink, Rect.width]
  ring

lemma shrink_height (g : Rect) : (g.shrink MIN_PADDING).height = g.height - 2 * MIN_PADDING := by
  simp only [Rect.shrink, Rect.height]
  ring

lemma translate_width (c : Rect) (v : Vec2) : (c.translate v).width = c.width := by
  simp only [Rect.translate, Rect.width]
  ring

lemma translate_height (c : Rect) (v : Vec2) : (c.translate v).height = c.height := by
  simp only [Rect.translate, Rect.height]
  ring

/-- The FitCalculator only reads the cutout's width and height, so translating
the cutout changes neither the padding nor the scaling factor. -/
lemma calc_translate_invariant (g c : Rect) (ar : ℚ) (v : Vec2) :
    Position.calculate_padding_and_scaling_factor g (c.translate v) ar
      = Position.calculate_padding_and_scaling_factor g c ar := by
  simp only [Position.calculate_padding_and_scaling_factor, Rect.aspect_ratio,
    translate_width, translate_height]

/-- One `manage_user_input` frame in `Dragging` mode with no drag release:
the mode and aspect ratio persist and the cutout is translated. -/
lemma drag_step (powQ : ℚ → ℚ → ℚ) (default_cutout g : Rect)
    (st : CanvasState) (inp : CanvasInput)
    (hmode : st.mode = CanvasMode.Dragging) (hrel : inp.drag_released = false) :
    (manage_user_input powQ default_cutout st g inp).mode = CanvasMode.Dragging
    ∧ (manage_user_input powQ default_cutout st g inp).aspect_ratio = st.aspect_ratio
    ∧ ∃ v : Vec2,
        (manage_user_input powQ default_cutout st g inp).current_cutout
          = st.current_cutout.translate v := by
  obtain ⟨cut, mode, df, ar⟩ := st
  simp only at hmode
  subst hmode
  refine ⟨?_, ?_, ?_⟩ <;> simp [manage_user_input, hrel]

/-- Folding any sequence of non-releasing frames over a `Dragging` state
keeps the mode, keeps the aspect ratio, and keeps the scaling factor. -/
lemma drag_fold_scaling (powQ : ℚ → ℚ → ℚ) (default_cutout g : Rect)
    (inputs : List CanvasInput) :
    ∀ st : CanvasState, st.mode = CanvasMode.Dragging →
      (∀ i ∈ inputs, i.drag_released = false) →
      (inputs.foldl (fun s i => manage_user_input powQ default_cutout s g i) st).mode
          = CanvasMode.Dragging
      ∧ (inputs.foldl (fun s i => manage_user_input powQ default_cutout s g i) st).aspect_ratio
          = st.aspect_ratio
      ∧ (Position.calculate_padding_and_scaling_factor g
            (inputs.foldl (fun s i => manage_user_input powQ default_cutout s g i)
              st).current_cutout st.aspect_ratio).2
          = (Position.calculate_padding_and_scaling_factor g st.current_cutout
              st.aspect_ratio).2 := by
  induction inputs with
  | nil => exact fun st h _ => ⟨h, rfl, rfl⟩
  | cons i is ih =>
    intro st hmode hrel
    obtain ⟨hm, har, hv⟩ :=
      drag_step powQ default_cutout g st i hmode (hrel i (List.mem_cons_self i is))
    obtain ⟨v, hv⟩ := hv
    obtain ⟨ihm, ihar, ihsc⟩ :=
      ih (manage_user_input powQ default_cutout st g i) hm
        (fun j hj => hrel j (List.mem_cons_of_mem i hj))
    rw [har] at ihar ihsc
    refine ⟨by rw [List.foldl_cons]; exact ihm, by rw [List.foldl_cons]; exact ihar, ?_⟩
    rw [List.foldl_cons, ihsc, hv, calc_translate_invariant]

/-! ## Claim theorems -/

/-- Claim C3: for every gui_space, cutout, and aspect_ratio with positive
extents, any sequence of drag frames (in `Dragging` mode, none of which
releases the drag) leaves the scaling-factor vector of
`calculate_padding_and_scaling_factor` unchanged: pan never changes the zoom
level. -/
theorem C3_pan_preserves_scale (powQ : ℚ → ℚ → ℚ) (default_cutout g : Rect)
    (st : CanvasState) (inputs : List CanvasInput)
    (hmode : st.mode = CanvasMode.Dragging)
    (hrel : ∀ i ∈ inputs, i.drag_released = false)
    (hgw : 0 < g.width) (hgh : 0 < g.height)
    (hcw : 0 < st.current_cutout.width) (hch : 0 < st.current_cutout.height)
    (har : 0 < st.aspect_ratio) :
    (Position.calculate_padding_and_scaling_factor g
        (inputs.foldl (fun s i => manage_user_input powQ default_cutout s g i)
          st).current_cutout
        (inputs.foldl (fun s i => manage_user_input powQ default_cutout s g i)
          st).aspect_ratio).2
      = (Position.calculate_padding_and_scaling_factor g st.current_cutout
          st.aspect_ratio).2 := by
  obtain ⟨hm, har2, hsc⟩ := drag_fold_scaling powQ default_cutout g inputs st hmode hrel
  rw [har2, hsc]

/-- Witness for C3 at a concrete input: one drag frame of delta `(5, 7)` on
the scenario geometry. -/
theorem C3_pan_preserves_scale_witness :
    (Position.calculate_padding_and_scaling_factor ⟨⟨0, 0⟩, ⟨1000, 500⟩⟩
        (([⟨false, 0, none, false, false, ⟨5, 7⟩⟩] :
            List CanvasInput).foldl
          (fun s i => manage_user_input (fun _ _ => 1) ⟨⟨0, 0⟩, ⟨10, 10⟩⟩ s ⟨⟨0, 0⟩, ⟨1000, 500⟩⟩ i)
          ⟨⟨⟨0, 0⟩, ⟨100, 100⟩⟩, CanvasMode.Dragging, false, 1⟩).current_cutout
        (([⟨false, 0, none, false, false, ⟨5, 7⟩⟩] :
            List CanvasInput).foldl
          (fun s i => manage_user_input (fun _ _ => 1) ⟨⟨0, 0⟩, ⟨10, 10⟩⟩ s ⟨⟨0, 0⟩, ⟨1000, 500⟩⟩ i)
          ⟨⟨⟨0, 0⟩, ⟨100, 100⟩⟩, CanvasMode.Dragging, false, 1⟩).aspect_ratio).2
      = (Position.calculate_padding_and_scaling_factor ⟨⟨0, 0⟩, ⟨1000, 500⟩⟩
          ⟨⟨0, 0⟩, ⟨100, 100⟩⟩ 1).2 := by
  exact C3_pan_preserves_scale (fun _ _ => 1) ⟨⟨0, 0⟩, ⟨10, 10⟩⟩ ⟨⟨0, 0⟩, ⟨1000, 500⟩⟩
    ⟨⟨⟨0, 0⟩, ⟨100, 100⟩⟩, CanvasMode.Dragging, false, 1⟩
    [⟨false, 0, none, false, false, ⟨5, 7⟩⟩] rfl
    (by intro i hi; simp at hi; subst hi; rfl)
    (by norm_num [Rect.width]) (by norm_num [Rect.height])
    (by norm_num [Rect.width]) (by norm_num [Rect.height]) (by norm_num)

/-- Claim C7, counterexample: at DeviceRect `[(0,0),(1000,500)]`,
Cutout `[(0,0),(100,100)]`, AspectRatio 1, the FitCalculator's x padding is
exactly 270, which is not approximately 249 (it misses by 21). -/
theorem C7_counterexample :
    (Position.calculate_padding_and_scaling_factor ⟨⟨0, 0⟩, ⟨1000, 500⟩⟩
        ⟨⟨0, 0⟩, ⟨100, 100⟩⟩ 1).1.x = 270
    ∧ ¬ |(270 : ℚ) - 249| ≤ 20 := by
  constructor
  · norm_num [Position.calculate_padding_and_scaling_factor, Rect.aspect_ratio,
      Rect.width, Rect.height, Rect.shrink, MIN_PADDING]
  · norm_num

/-- Claim C7 (amended: the padding is `(270, 20)`, not `≈ (249, 20)`): on
DeviceRect `[(0,0),(1000,500)]`, Cutout `[(0,0),(100,100)]`, AspectRatio 1,
the y-limited branch is taken (the cutout ratio 1 is smaller than the shrunk
device ratio 960/460) and the FitCalculator returns scaling factor
`(4.6, 4.6)` with padding `(270, 20)` — x centered, y at the 20-unit
margin. -/
theorem C7_scenario :
    (⟨⟨0, 0⟩, ⟨100, 100⟩⟩ : Rect).aspect_ratio * 1
        < ((⟨⟨0, 0⟩, ⟨1000, 500⟩⟩ : Rect).shrink MIN_PADDING).aspect_ratio
    ∧ Position.calculate_padding_and_scaling_factor ⟨⟨0, 0⟩, ⟨1000, 500⟩⟩
        ⟨⟨0, 0⟩, ⟨100, 100⟩⟩ 1
      = (⟨270, 20⟩, ⟨23/5, 23/5⟩) := by
  constructor
  · norm_num [Rect.aspect_ratio, Rect.width, Rect.height, Rect.shrink, MIN_PADDING]
  · norm_num [Position.calculate_padding_and_scaling_factor, Rect.aspect_ratio,
      Rect.width, Rect.height, Rect.shrink, MIN_PADDING]

/-- Claim C10: the unit drawable and the empty vector drawable both report
the dummy cutout `[(0,0),(10,10)]`; a fresh `CanvasState` therefore starts
with that cutout (and mode `Normal`), and resetting the cutout with unit or
empty content installs the same rectangle. -/
theorem C10_dummy_cutout :
    Drawable.get_cutout () () = Rect.from_two_pos ⟨0, 0⟩ ⟨10, 10⟩
    ∧ (∀ (α D : Type) [Drawable α D] (draw_data : D),
        Drawable.get_cutout ([] : List α) draw_data = Rect.from_two_pos ⟨0, 0⟩ ⟨10, 10⟩)
    ∧ CanvasState.new.current_cutout = Rect.from_two_pos ⟨0, 0⟩ ⟨10, 10⟩
    ∧ CanvasState.new.mode = CanvasMode.Normal
    ∧ (∀ st : CanvasState,
        (st.reset_cutout () ()).current_cutout = Rect.from_two_pos ⟨0, 0⟩ ⟨10, 10⟩)
    ∧ (∀ (α D : Type) [Drawable α D] (draw_data : D) (st : CanvasState),
        (st.reset_cutout ([] : List α) draw_data).current_cutout
          = Rect.from_two_pos ⟨0, 0⟩ ⟨10, 10⟩) := by
  refine ⟨rfl, fun α D _ d => rfl, rfl, rfl, fun st => rfl, fun α D _ d st => rfl⟩

/-- The divisors that `Position::calculate_padding_and_scaling_factor`
divides by, in the source's evaluation order: the cutout height (inside
`current_cutout.aspect_ratio()`), the shrunk gui height (inside the shrunk
rect's `aspect_ratio()`), the aspect ratio itself (for `y_stretch = 1.0 /
aspect_ratio` when `aspect_ratio ≤ 1`), and the branch divisor
`cutout_extent * stretch`.  This proposition holds iff the function performs
at least one division by zero; the source contains no epsilon clamping. -/
def calc_performs_division_by_zero (gui_space current_cutout : Rect) (aspect_ratio : ℚ) : Prop :=
  current_cutout.height = 0
  ∨ (gui_space.shrink MIN_PADDING).height = 0
  ∨ (¬ 1 < aspect_ratio ∧ aspect_ratio = 0)
  ∨ (if current_cutout.aspect_ratio * aspect_ratio
        < (gui_space.shrink MIN_PADDING).aspect_ratio then
      current_cutout.height * (if 1 < aspect_ratio then 1 else 1 / aspect_ratio) = 0
    else
      current_cutout.width * (if 1 < aspect_ratio then aspect_ratio else 1) = 0)

/-- Claim C8 is contradicted by the code: `calculate_padding_and_scaling_factor`
contains no epsilon clamping, and it performs a division by zero both for a
zero-height cutout (DeviceRect `[(0,0),(1000,500)]`, Cutout `[(0,0),(100,0)]`,
AspectRatio 1 — the cutout's `aspect_ratio()` divides by its height 0) and for
a gui rect whose margin-shrunk height is zero (DeviceRect `[(0,0),(1000,40)]`
— the shrunk rect's `aspect_ratio()` divides by 40 − 2·20 = 0). -/
theorem C8_division_by_zero_reachable :
    calc_performs_division_by_zero ⟨⟨0, 0⟩, ⟨1000, 500⟩⟩ ⟨⟨0, 0⟩, ⟨100, 0⟩⟩ 1
    ∧ calc_performs_division_by_zero ⟨⟨0, 0⟩, ⟨1000, 40⟩⟩ ⟨⟨0, 0⟩, ⟨100, 100⟩⟩ 1 := by
  constructor
  · left
    norm_num [Rect.height]
  · right; left
    norm_num [Rect.height, Rect.shrink, MIN_PADDING]

/-- With a positive aspect ratio, positive cutout extents, and a gui rect
whose margin-shrunk extents are nonzero, neither scaling-factor component is
zero. -/
lemma scaling_factor_ne_zero (g c : Rect) (ar : ℚ)
    (hgw40 : g.width ≠ 2 * MIN_PADDING) (hgh40 : g.height ≠ 2 * MIN_PADDING)
    (hcw : 0 < c.width) (hch : 0 < c.height) (har : 0 < ar) :
    (Position.calculate_padding_and_scaling_factor g c ar).2.x ≠ 0
    ∧ (Position.calculate_padding_and_scaling_factor g c ar).2.y ≠ 0 := by
  have hxs : (if 1 < ar then ar else 1) ≠ 0 := by
    split
    · exact ne_of_gt har
    · exact one_ne_zero
  have hys : (if 1 < ar then 1 else 1 / ar) ≠ 0 := by
    split
    · exact one_ne_zero
    · exact one_div_ne_zero (ne_of_gt har)
  have hshw : (g.shrink MIN_PADDING).width ≠ 0 := by
    rw [shrink_width]
    exact sub_ne_zero_of_ne hgw40
  have hshh : (g.shrink MIN_PADDING).height ≠ 0 := by
    rw [shrink_height]
    exact sub_ne_zero_of_ne hgh40
  by_cases hb :
      c.aspect_ratio * ar < (g.shrink MIN_PADDING).aspect_ratio
  · simp only [Position.calculate_padding_and_scaling_factor, if_pos hb]
    exact ⟨mul_ne_zero (div_ne_zero hshh (mul_ne_zero (ne_of_gt hch) hys)) hxs,
           mul_ne_zero (div_ne_zero hshh (mul_ne_zero (ne_of_gt hch) hys)) hys⟩
  · simp only [Position.calculate_padding_and_scaling_factor, if_neg hb]
    exact ⟨mul_ne_zero (div_ne_zero hshw (mul_ne_zero (ne_of_gt hcw) hxs)) hxs,
           mul_ne_zero (div_ne_zero hshw (mul_ne_zero (ne_of_gt hcw) hxs)) hys⟩

/-- Claim C1 (amended: additionally the gui rect's width and height must
differ from 2·MIN_PADDING = 40, so that the margin-shrunk drawing area is not
degenerate): for every gui_space, cutout and aspect ratio with positive
extents and positive aspect ratio, converting a Gui position to canvas space
and back — and a Canvas position to gui space and back — is the exact
identity. -/
theorem C1_round_trip (g c : Rect) (ar : ℚ) (p : Pos2)
    (hgw : 0 < g.width) (hgh : 0 < g.height)
    (hgw40 : g.width ≠ 2 * MIN_PADDING) (hgh40 : g.height ≠ 2 * MIN_PADDING)
    (hcw : 0 < c.width) (hch : 0 < c.height) (har : 0 < ar) :
    (Position.Gui ((Position.Canvas p).to_gui_space g c ar)).to_canvas_space g c ar = p
    ∧ (Position.Canvas ((Position.Gui p).to_canvas_space g c ar)).to_gui_space g c ar = p := by
  obtain ⟨hsx, hsy⟩ := scaling_factor_ne_zero g c ar hgw40 hgh40 hcw hch har
  obtain ⟨px, py⟩ := p
  constructor <;>
    · simp only [Position.to_gui_space, Position.to_overlay_space, Position.to_canvas_space,
        Pos2.mk.injEq]
      constructor <;> field_simp <;> ring

/-- Witness for C1 at a concrete input: the scenario geometry and the point
`(3, 4)`. -/
theorem C1_round_trip_witness :
    (Position.Gui ((Position.Canvas ⟨3, 4⟩).to_gui_space ⟨⟨0, 0⟩, ⟨1000, 500⟩⟩
          ⟨⟨0, 0⟩, ⟨100, 100⟩⟩ 1)).to_canvas_space ⟨⟨0, 0⟩, ⟨1000, 500⟩⟩
        ⟨⟨0, 0⟩, ⟨100, 100⟩⟩ 1 = ⟨3, 4⟩
    ∧ (Position.Canvas ((Position.Gui ⟨3, 4⟩).to_canvas_space ⟨⟨0, 0⟩, ⟨1000, 500⟩⟩
          ⟨⟨0, 0⟩, ⟨100, 100⟩⟩ 1)).to_gui_space ⟨⟨0, 0⟩, ⟨1000, 500⟩⟩
        ⟨⟨0, 0⟩, ⟨100, 100⟩⟩ 1 = ⟨3, 4⟩ := by
  exact C1_round_trip ⟨⟨0, 0⟩, ⟨1000, 500⟩⟩ ⟨⟨0, 0⟩, ⟨100, 100⟩⟩ 1 ⟨3, 4⟩
    (by norm_num [Rect.width]) (by norm_num [Rect.height])
    (by norm_num [Rect.width, MIN_PADDING]) (by norm_num [Rect.height, MIN_PADDING])
    (by norm_num [Rect.width]) (by norm_num [Rect.height]) (by norm_num)

/-- Claim C1, counterexample: for the gui rect `[(0,0),(40,100)]` (positive
extents, but width exactly 2·MIN_PADDING), cutout `[(0,0),(10,10)]` and
aspect ratio 1, the scaling factor degenerates to zero and the round trip of
the Canvas point `(1, 2)` returns `(0, 0)` — off by a whole unit in x and two
units in y, far beyond floating-point tolerance (in `f32` the same input
divides 0 by 0 and yields NaN). -/
theorem C1_round_trip_counterexample :
    (Position.Gui ((Position.Canvas ⟨1, 2⟩).to_gui_space ⟨⟨0, 0⟩, ⟨40, 100⟩⟩
          ⟨⟨0, 0⟩, ⟨10, 10⟩⟩ 1)).to_canvas_space ⟨⟨0, 0⟩, ⟨40, 100⟩⟩
        ⟨⟨0, 0⟩, ⟨10, 10⟩⟩ 1 = ⟨0, 0⟩
    ∧ Pos2.mk 0 0 ≠ ⟨1, 2⟩ := by
  constructor
  · norm_num [Position.to_canvas_space, Position.to_gui_space, Position.to_overlay_space,
      Position.calculate_padding_and_scaling_factor, Rect.aspect_ratio, Rect.width,
      Rect.height, Rect.shrink, MIN_PADDING, Pos2.mk.injEq]
  · simp only [ne_eq, Pos2.mk.injEq, not_and]
    norm_num

/-- One `manage_user_input` frame in `Normal` mode with no space reset, a
hover position, and a scroll past the dead zone: the cutout becomes the
zoomed cutout of the source (`Rect::from_min_size(offset, size * zoom)`),
and the aspect ratio persists. -/
lemma zoom_step (powQ : ℚ → ℚ → ℚ) (default_cutout g : Rect)
    (st : CanvasState) (inp : CanvasInput) (hp : Pos2)
    (hmode : st.mode = CanvasMode.Normal)
    (hspace : inp.space_pressed = false)
    (hhover : inp.hover_pos = some hp)
    (hscroll : 1 < |inp.scroll_delta_y|) :
    (manage_user_input powQ default_cutout st g inp).current_cutout
      = Rect.from_min_size
          ⟨((Position.Gui hp).to_canvas_space g st.current_cutout st.aspect_ratio).x
              * (1 - powQ (9/10) (inp.scroll_delta_y / 50))
              + powQ (9/10) (inp.scroll_delta_y / 50) * st.current_cutout.min.x,
           ((Position.Gui hp).to_canvas_space g st.current_cutout st.aspect_ratio).y
              * (1 - powQ (9/10) (inp.scroll_delta_y / 50))
              + powQ (9/10) (inp.scroll_delta_y / 50) * st.current_cutout.min.y⟩
          ⟨st.current_cutout.size.x * powQ (9/10) (inp.scroll_delta_y / 50),
           st.current_cutout.size.y * powQ (9/10) (inp.scroll_delta_y / 50)⟩
    ∧ (manage_user_input powQ default_cutout st g inp).aspect_ratio = st.aspect_ratio := by
  obtain ⟨cut, mode, df, ar⟩ := st
  simp only at hmode
  subst hmode
  simp only [manage_user_input, hspace, hhover, if_pos hscroll, Bool.false_eq_true, if_false]
  constructor <;>
    · split
      · split <;> rfl
      · rfl

/-- Cancellation identity behind the zoom invariance of the padding. -/
lemma zoom_pad_eq (w H a b s zf : ℚ) (hzf : zf ≠ 0) (ha : a ≠ 0) (hb : b ≠ 0) :
    w * zf * (H / (a * zf * b)) * s = w * (H / (a * b)) * s := by
  field_simp
  ring

/-- Cancellation identity behind the zoom scaling of the scaling factor. -/
lemma zoom_scale_eq (H a b s zf : ℚ) (hzf : zf ≠ 0) (ha : a ≠ 0) (hb : b ≠ 0) :
    H / (a * zf * b) * s = H / (a * b) * s / zf := by
  rw [mul_right_comm a zf b, ← div_div, div_mul_eq_mul_div]

/-- Scaling the cutout's size by a nonzero factor `zf` (with any new min
corner) keeps the FitCalculator's branch choice and padding, and divides both
scaling-factor components by `zf`. -/
lemma calc_zoom (g c : Rect) (ar zf : ℚ) (m : Pos2) (hzf : zf ≠ 0)
    (hcw : 0 < c.width) (hch : 0 < c.height) (har : 0 < ar) :
    Position.calculate_padding_and_scaling_factor g
      (Rect.from_min_size m ⟨c.size.x * zf, c.size.y * zf⟩) ar
      = ((Position.calculate_padding_and_scaling_factor g c ar).1,
         ⟨(Position.calculate_padding_and_scaling_factor g c ar).2.x / zf,
          (Position.calculate_padding_and_scaling_factor g c ar).2.y / zf⟩) := by
  have hw : (Rect.from_min_size m ⟨c.size.x * zf, c.size.y * zf⟩).width = c.width * zf := by
    simp only [Rect.from_min_size, Rect.width, Rect.size]
    ring
  have hh : (Rect.from_min_size m ⟨c.size.x * zf, c.size.y * zf⟩).height = c.height * zf := by
    simp only [Rect.from_min_size, Rect.height, Rect.size]
    ring
  have hasp : (Rect.from_min_size m ⟨c.size.x * zf, c.size.y * zf⟩).aspect_ratio
      = c.aspect_ratio := by
    rw [Rect.aspect_ratio, Rect.aspect_ratio, hw, hh, mul_div_mul_right _ _ hzf]
  simp only [Position.calculate_padding_and_scaling_factor, hasp, hw, hh]
  set xs := (if 1 < ar then ar else 1) with hxs_def
  set ys := (if 1 < ar then 1 else 1 / ar) with hys_def
  have hxs : xs ≠ 0 := by
    rw [hxs_def]
    split
    · exact ne_of_gt har
    · exact one_ne_zero
  have hys : ys ≠ 0 := by
    rw [hys_def]
    split
    · exact one_ne_zero
    · exact one_div_ne_zero (ne_of_gt har)
  by_cases hb : c.aspect_ratio * ar < (g.shrink MIN_PADDING).aspect_ratio
  · rw [if_pos hb, if_pos hb, Prod.mk.injEq, Vec2.mk.injEq, Vec2.mk.injEq]
    refine ⟨⟨?_, rfl⟩, ?_, ?_⟩
    · rw [zoom_pad_eq c.width ((g.shrink MIN_PADDING).height) c.height ys xs zf hzf
        (ne_of_gt hch) hys]
    · rw [zoom_scale_eq ((g.shrink MIN_PADDING).height) c.height ys xs zf hzf
        (ne_of_gt hch) hys]
    · rw [zoom_scale_eq ((g.shrink MIN_PADDING).height) c.height ys ys zf hzf
        (ne_of_gt hch) hys]
  · rw [if_neg hb, if_neg hb, Prod.mk.injEq, Vec2.mk.injEq, Vec2.mk.injEq]
    refine ⟨⟨rfl, ?_⟩, ?_, ?_⟩
    · rw [zoom_pad_eq c.height ((g.shrink MIN_PADDING).width) c.width xs ys zf hzf
        (ne_of_gt hcw) hxs]
    · rw [zoom_scale_eq ((g.shrink MIN_PADDING).width) c.width xs xs zf hzf
        (ne_of_gt hcw) hxs]
    · rw [zoom_scale_eq ((g.shrink MIN_PADDING).width) c.width xs ys zf hzf
        (ne_of_gt hcw) hxs]

/-- Claim C2: in `Normal` mode (and with no simultaneous space-key reset),
with a hover position present and `|scroll_delta_y| > 1`, the scroll handler
replaces the cutout so that (a) the new size is the old size times
`zoom_factor = 0.9 ^ (scroll_delta_y / 50)` (modelled by the positive value
`powQ (9/10) (scroll_delta_y / 50)`), (b) the new min is
`fix_point * (1 - zoom_factor) + zoom_factor * old_min` where `fix_point` is
the hover position converted to canvas space under the old cutout, and
(c) the hover position converts to the same canvas point under the new
cutout as under the old one (the zoom fixed point) — exactly. -/
theorem C2_zoom_to_cursor (powQ : ℚ → ℚ → ℚ) (default_cutout g : Rect)
    (st : CanvasState) (inp : CanvasInput) (hp : Pos2)
    (hmode : st.mode = CanvasMode.Normal)
    (hspace : inp.space_pressed = false)
    (hhover : inp.hover_pos = some hp)
    (hscroll : 1 < |inp.scroll_delta_y|)
    (hgw40 : g.width ≠ 2 * MIN_PADDING) (hgh40 : g.height ≠ 2 * MIN_PADDING)
    (hcw : 0 < st.current_cutout.width) (hch : 0 < st.current_cutout.height)
    (har : 0 < st.aspect_ratio)
    (hzf : 0 < powQ (9/10) (inp.scroll_delta_y / 50)) :
    (manage_user_input powQ default_cutout st g inp).current_cutout.size
        = ⟨st.current_cutout.size.x * powQ (9/10) (inp.scroll_delta_y / 50),
           st.current_cutout.size.y * powQ (9/10) (inp.scroll_delta_y / 50)⟩
    ∧ (manage_user_input powQ default_cutout st g inp).current_cutout.min
        = ⟨((Position.Gui hp).to_canvas_space g st.current_cutout st.aspect_ratio).x
              * (1 - powQ (9/10) (inp.scroll_delta_y / 50))
              + powQ (9/10) (inp.scroll_delta_y / 50) * st.current_cutout.min.x,
           ((Position.Gui hp).to_canvas_space g st.current_cutout st.aspect_ratio).y
              * (1 - powQ (9/10) (inp.scroll_delta_y / 50))
              + powQ (9/10) (inp.scroll_delta_y / 50) * st.current_cutout.min.y⟩
    ∧ (Position.Gui hp).to_canvas_space g
          (manage_user_input powQ default_cutout st g inp).current_cutout st.aspect_ratio
        = (Position.Gui hp).to_canvas_space g st.current_cutout st.aspect_ratio := by
  obtain ⟨hcut, -⟩ :=
    zoom_step powQ default_cutout g st inp hp hmode hspace hhover hscroll
  obtain ⟨hsx, hsy⟩ :=
    scaling_factor_ne_zero g st.current_cutout st.aspect_ratio hgw40 hgh40 hcw hch har
  refine ⟨?_, ?_, ?_⟩
  · rw [hcut]
    simp only [Rect.from_min_size, Rect.size, Rect.width, Rect.height, Vec2.mk.injEq]
    constructor <;> ring
  · rw [hcut]
    rfl
  · rw [hcut]
    simp only [Position.to_canvas_space]
    rw [calc_zoom g st.current_cutout st.aspect_ratio (powQ (9/10) (inp.scroll_delta_y / 50))
        _ (ne_of_gt hzf) hcw hch har]
    dsimp only [Rect.from_min_size]
    simp only [Pos2.mk.injEq]
    constructor <;>
      · field_simp
        ring

/-- Witness for C2 at a concrete input: the scenario geometry, hover at the
gui point `(500, 250)`, scroll delta 50, and the constant power function
returning 9/10. -/
theorem C2_zoom_to_cursor_witness :
    (manage_user_input (fun _ _ => 9/10) ⟨⟨0, 0⟩, ⟨10, 10⟩⟩
          ⟨⟨⟨0, 0⟩, ⟨100, 100⟩⟩, CanvasMode.Normal, false, 1⟩ ⟨⟨0, 0⟩, ⟨1000, 500⟩⟩
          ⟨false, 50, some ⟨500, 250⟩, false, false, ⟨0, 0⟩⟩).current_cutout.size
        = ⟨(⟨⟨⟨0, 0⟩, ⟨100, 100⟩⟩, CanvasMode.Normal, false, 1⟩ :
              CanvasState).current_cutout.size.x * ((fun (_ _ : ℚ) => (9:ℚ)/10) (9/10) (50 / 50)),
           (⟨⟨⟨0, 0⟩, ⟨100, 100⟩⟩, CanvasMode.Normal, false, 1⟩ :
              CanvasState).current_cutout.size.y * ((fun (_ _ : ℚ) => (9:ℚ)/10) (9/10) (50 / 50))⟩
    ∧ (manage_user_input (fun _ _ => 9/10) ⟨⟨0, 0⟩, ⟨10, 10⟩⟩
          ⟨⟨⟨0, 0⟩, ⟨100, 100⟩⟩, CanvasMode.Normal, false, 1⟩ ⟨⟨0, 0⟩, ⟨1000, 500⟩⟩
          ⟨false, 50, some ⟨500, 250⟩, false, false, ⟨0, 0⟩⟩).current_cutout.min
        = ⟨((Position.Gui ⟨500, 250⟩).to_canvas_space ⟨⟨0, 0⟩, ⟨1000, 500⟩⟩
              ⟨⟨0, 0⟩, ⟨100, 100⟩⟩ 1).x * (1 - (fun (_ _ : ℚ) => (9:ℚ)/10) (9/10) (50 / 50))
              + (fun (_ _ : ℚ) => (9:ℚ)/10) (9/10) (50 / 50) * 0,
           ((Position.Gui ⟨500, 250⟩).to_canvas_space ⟨⟨0, 0⟩, ⟨1000, 500⟩⟩
              ⟨⟨0, 0⟩, ⟨100, 100⟩⟩ 1).y * (1 - (fun (_ _ : ℚ) => (9:ℚ)/10) (9/10) (50 / 50))
              + (fun (_ _ : ℚ) => (9:ℚ)/10) (9/10) (50 / 50) * 0⟩
    ∧ (Position.Gui ⟨500, 250⟩).to_canvas_space ⟨⟨0, 0⟩, ⟨1000, 500⟩⟩
          (manage_user_input (fun _ _ => 9/10) ⟨⟨0, 0⟩, ⟨10, 10⟩⟩
            ⟨⟨⟨0, 0⟩, ⟨100, 100⟩⟩, CanvasMode.Normal, false, 1⟩ ⟨⟨0, 0⟩, ⟨1000, 500⟩⟩
            ⟨false, 50, some ⟨500, 250⟩, false, false, ⟨0, 0⟩⟩).current_cutout 1
        = (Position.Gui ⟨500, 250⟩).to_canvas_space ⟨⟨0, 0⟩, ⟨1000, 500⟩⟩
            ⟨⟨0, 0⟩, ⟨100, 100⟩⟩ 1 := by
  exact C2_zoom_to_cursor (fun _ _ => 9/10) ⟨⟨0, 0⟩, ⟨10, 10⟩⟩ ⟨⟨0, 0⟩, ⟨1000, 500⟩⟩
    ⟨⟨⟨0, 0⟩, ⟨100, 100⟩⟩, CanvasMode.Normal, false, 1⟩
    ⟨false, 50, some ⟨500, 250⟩, false, false, ⟨0, 0⟩⟩ ⟨500, 250⟩
    rfl rfl rfl (by norm_num) (by norm_num [Rect.width, MIN_PADDING])
    (by norm_num [Rect.height, MIN_PADDING]) (by norm_num [Rect.width])
    (by norm_num [Rect.height]) (by norm_num) (by norm_num)

/-! ## Tick-planner lemmas -/

/-- One iteration of the normalization loop while the span is below the
bound. -/
lemma normalizeLoop_step (bound : ℚ) (fuel : ℕ) (d : ℚ) (s : ℕ) (h : d < bound) :
    normalizeLoop bound (fuel + 1) d s = normalizeLoop bound fuel (d * 10) (s + 1) := by
  rw [normalizeLoop.eq_def, if_pos h]

/-- The normalization loop exits as soon as the span reaches the bound. -/
lemma normalizeLoop_done (bound : ℚ) (fuel : ℕ) (d : ℚ) (s : ℕ) (h : ¬ d < bound) :
    normalizeLoop bound fuel d s = some (d, s) := by
  rw [normalizeLoop.eq_def, if_neg h]

/-- Exhausted fuel with the span still below the bound yields `none`. -/
lemma normalizeLoop_fuel_zero (bound : ℚ) (d : ℚ) (s : ℕ) (h : d < bound) :
    normalizeLoop bound 0 d s = none := by
  rw [normalizeLoop.eq_def, if_pos h]

/-- Soundness of the normalization loop: a successful run multiplied the span
by a power of ten that pushed it to (or past) the bound. -/
lemma normalizeLoop_sound (bound : ℚ) :
    ∀ (fuel : ℕ) (d : ℚ) (s : ℕ) (d' : ℚ) (s' : ℕ),
      normalizeLoop bound fuel d s = some (d', s') →
      bound ≤ d' ∧ ∃ k : ℕ, s' = s + k ∧ d' = d * 10 ^ k := by
  intro fuel
  induction fuel with
  | zero =>
    intro d s d' s' h
    by_cases hd : d < bound
    · rw [normalizeLoop_fuel_zero bound d s hd] at h
      exact absurd h (by simp)
    · rw [normalizeLoop_done bound 0 d s hd] at h
      obtain ⟨rfl, rfl⟩ : d = d' ∧ s = s' := by simpa using h
      exact ⟨not_lt.mp hd, 0, by simp⟩
  | succ fuel ih =>
    intro d s d' s' h
    by_cases hd : d < bound
    · rw [normalizeLoop_step bound fuel d s hd] at h
      obtain ⟨hb, k, hs, hdk⟩ := ih (d * 10) (s + 1) d' s' h
      refine ⟨hb, k + 1, by omega, ?_⟩
      rw [hdk, pow_succ]
      ring
    · rw [normalizeLoop_done bound (fuel + 1) d s hd] at h
      obtain ⟨rfl, rfl⟩ : d = d' ∧ s = s' := by simpa using h
      exact ⟨not_lt.mp hd, 0, by simp⟩

/-- Fuel sufficiency for the normalization loop: if `k` multiplications by 10
reach the bound, fuel `k` completes the loop. -/
lemma normalizeLoop_isSome (bound : ℚ) :
    ∀ (k : ℕ) (d : ℚ) (s : ℕ), bound ≤ d * 10 ^ k →
      (normalizeLoop bound k d s).isSome := by
  intro k
  induction k with
  | zero =>
    intro d s h
    rw [pow_zero, mul_one] at h
    rw [normalizeLoop_done bound 0 d s (not_lt.mpr h)]
    rfl
  | succ k ih =>
    intro d s h
    by_cases hd : d < bound
    · rw [normalizeLoop_step bound k d s hd]
      apply ih
      calc bound ≤ d * 10 ^ (k + 1) := h
        _ = d * 10 * 10 ^ k := by rw [pow_succ]; ring
    · rw [normalizeLoop_done bound (k + 1) d s hd]
      rfl

/-- With a positive bound, a zero span never reaches it: the normalization
loop diverges (runs out of any amount of fuel). -/
lemma normalizeLoop_zero_diverges (bound : ℚ) (hb : 0 < bound) :
    ∀ (fuel : ℕ) (s : ℕ), normalizeLoop bound fuel 0 s = none := by
  intro fuel
  induction fuel with
  | zero => exact fun s => normalizeLoop_fuel_zero bound 0 s hb
  | succ fuel ih =>
    intro s
    rw [normalizeLoop_step bound fuel 0 s hb, zero_mul]
    exact ih (s + 1)

/-- Nice ticks: the values `{1, 2, 5, 25} * 10 ^ j`. -/
def NiceTick (b : ℕ) : Prop := ∃ c ∈ tick_options, ∃ j : ℕ, b = c * 10 ^ j

/-- One candidate step of the best-tick search preserves the loop invariant:
the accumulator is a nice tick, its tick count is the integer count
`D / best`, and that count stays at or above the floor. -/
lemma tickFoldStep_invariant (wanted min_ticks D j t : ℕ) (ht : t ∈ tick_options)
    (acc : ℕ × ℕ) (h1 : NiceTick acc.1) (h2 : acc.2 = D / acc.1) (h3 : min_ticks ≤ acc.2) :
    NiceTick (tickFoldStep wanted min_ticks (D / 10 ^ j) (10 ^ j) acc t).1
    ∧ (tickFoldStep wanted min_ticks (D / 10 ^ j) (10 ^ j) acc t).2
        = D / (tickFoldStep wanted min_ticks (D / 10 ^ j) (10 ^ j) acc t).1
    ∧ min_ticks ≤ (tickFoldStep wanted min_ticks (D / 10 ^ j) (10 ^ j) acc t).2 := by
  simp only [tickFoldStep]
  split
  · rename_i hcond
    exact ⟨⟨t, ht, j, mul_comm (10 ^ j) t⟩, Nat.div_div_eq_div_mul D (10 ^ j) t, hcond.1⟩
  · exact ⟨h1, h2, h3⟩

/-- The whole four-candidate fold preserves the loop invariant. -/
lemma tickFold_invariant (wanted min_ticks D j : ℕ) (acc : ℕ × ℕ)
    (h1 : NiceTick acc.1) (h2 : acc.2 = D / acc.1) (h3 : min_ticks ≤ acc.2) :
    NiceTick ((tick_options.foldl
        (tickFoldStep wanted min_ticks (D / 10 ^ j) (10 ^ j)) acc)).1
    ∧ (tick_options.foldl (tickFoldStep wanted min_ticks (D / 10 ^ j) (10 ^ j)) acc).2
        = D / (tick_options.foldl (tickFoldStep wanted min_ticks (D / 10 ^ j) (10 ^ j)) acc).1
    ∧ min_ticks ≤
        (tick_options.foldl (tickFoldStep wanted min_ticks (D / 10 ^ j) (10 ^ j)) acc).2 := by
  have m1 : (1 : ℕ) ∈ tick_options := by simp [tick_options]
  have m2 : (2 : ℕ) ∈ tick_options := by simp [tick_options]
  have m5 : (5 : ℕ) ∈ tick_options := by simp [tick_options]
  have m25 : (25 : ℕ) ∈ tick_options := by simp [tick_options]
  have s1 := tickFoldStep_invariant wanted min_ticks D j 1 m1 acc h1 h2 h3
  have s2 := tickFoldStep_invariant wanted min_ticks D j 2 m2 _ s1.1 s1.2.1 s1.2.2
  have s5 := tickFoldStep_invariant wanted min_ticks D j 5 m5 _ s2.1 s2.2.1 s2.2.2
  have s25 := tickFoldStep_invariant wanted min_ticks D j 25 m25 _ s5.1 s5.2.1 s5.2.2
  simpa only [tick_options, List.foldl] using s25

/-- Invariant of the best-tick search loop: whenever the loop finishes, the
final accumulator is a nice tick whose integer tick count `D / best` is at
least the floor. -/
lemma bestTickLoop_invariant (wanted min_ticks D : ℕ) :
    ∀ (fuel : ℕ) (rest growing : ℕ) (acc res : ℕ × ℕ),
      (∃ j : ℕ, growing = 10 ^ j ∧ rest = D / 10 ^ j) →
      NiceTick acc.1 → acc.2 = D / acc.1 → min_ticks ≤ acc.2 →
      bestTickLoop wanted min_ticks fuel rest growing acc = some res →
      NiceTick res.1 ∧ res.2 = D / res.1 ∧ min_ticks ≤ res.2 := by
  intro fuel
  induction fuel with
  | zero =>
    intro rest growing acc res hj h1 h2 h3 h
    rw [bestTickLoop.eq_def] at h
    by_cases hr : rest = 0
    · rw [if_pos hr] at h
      obtain rfl : acc = res := by simpa using h
      exact ⟨h1, h2, h3⟩
    · rw [if_neg hr] at h
      exact absurd h (by simp)
  | succ fuel ih =>
    intro rest growing acc res hj h1 h2 h3 h
    obtain ⟨j, hg, hr⟩ := hj
    rw [bestTickLoop.eq_def] at h
    by_cases hr0 : rest = 0
    · rw [if_pos hr0] at h
      obtain rfl : acc = res := by simpa using h
      exact ⟨h1, h2, h3⟩
    · rw [if_neg hr0] at h
      subst hg hr
      obtain ⟨f1, f2, f3⟩ := tickFold_invariant wanted min_ticks D j acc h1 h2 h3
      refine ih (D / 10 ^ j / 10) (10 ^ j * 10) _ res ⟨j + 1, ?_, ?_⟩ f1 f2 f3 h
      · rw [pow_succ]
      · rw [Nat.div_div_eq_div_mul, pow_succ]

/-- Fuel sufficiency for the best-tick search: fuel `rest` completes the
loop (the remaining span is integer-divided by 10 each round). -/
lemma bestTickLoop_isSome (wanted min_ticks : ℕ) :
    ∀ (fuel : ℕ) (rest growing : ℕ) (acc : ℕ × ℕ), rest ≤ fuel →
      (bestTickLoop wanted min_ticks fuel rest growing acc).isSome := by
  intro fuel
  induction fuel with
  | zero =>
    intro rest growing acc h
    obtain rfl : rest = 0 := Nat.le_zero.mp h
    rw [bestTickLoop.eq_def, if_pos rfl]
    rfl
  | succ fuel ih =>
    intro rest growing acc h
    rw [bestTickLoop.eq_def]
    by_cases hr : rest = 0
    · rw [if_pos hr]
      rfl
    · rw [if_neg hr]
      exact ih (rest / 10) (growing * 10) _
        (Nat.le_of_lt_succ (Nat.lt_of_lt_of_le
          (Nat.div_lt_self (Nat.pos_of_ne_zero hr) (by norm_num)) h))

/-- Claim C9 (amended: the visible span must be nonzero; at `draw_space = 0`
the normalization loop never terminates): for `Automatic n` with `n ≥ 1` and
any `draw_space > 0`, `get_absolute_tick` terminates — some finite fuel makes
the normalization loop reach the bound `1000 * n`, and the subsequent
best-tick search (whose remaining span is integer-divided by 10 each round)
finishes within its own fuel. -/
theorem C9_terminates (n : ℕ) (d : ℚ) (hn : 1 ≤ n) (hd : 0 < d) :
    ∃ fuel : ℕ, ((Tick.Automatic n).get_absolute_tick fuel d).isSome := by
  have habs : |d| = d := abs_of_pos hd
  obtain ⟨k, hk⟩ := pow_unbounded_of_one_lt (1000 * (n : ℚ) / d) (by norm_num : (1 : ℚ) < 10)
  have hreach : 1000 * (n : ℚ) ≤ |d| * 10 ^ k := by
    rw [habs]
    calc 1000 * (n : ℚ) = 1000 * (n : ℚ) / d * d := by field_simp
      _ ≤ 10 ^ k * d := by
          exact mul_le_mul_of_nonneg_right (le_of_lt hk) (le_of_lt hd)
      _ = d * 10 ^ k := mul_comm _ _
  refine ⟨k, ?_⟩
  simp only [Tick.get_absolute_tick]
  obtain ⟨⟨d', s⟩, hnorm⟩ :=
    Option.isSome_iff_exists.mp (normalizeLoop_isSome (1000 * (n : ℚ)) k |d| 0 hreach)
  rw [hnorm]
  have hbig := bestTickLoop_isSome n (Min.min n MIN_NUMBER_OF_TICKS)
    (⌊d'⌋₊ + 1) ⌊d'⌋₊ 1 (1, ⌊d'⌋₊ / 1) (Nat.le_succ _)
  obtain ⟨best, hbest⟩ := Option.isSome_iff_exists.mp hbig
  simp only [get_best_tick_from_big, MIN_NUMBER_OF_TICKS] at hbest ⊢
  rw [hbest]
  rfl

/-- Claim C9, counterexample: at `draw_space = 0` (with `Automatic 4`) the
normalization loop multiplies 0 by 10 forever and never reaches the bound
4000 — no amount of fuel makes `get_absolute_tick` return. -/
theorem C9_counterexample :
    ¬ ∃ fuel : ℕ, ((Tick.Automatic 4).get_absolute_tick fuel 0).isSome := by
  rintro ⟨fuel, h⟩
  simp only [Tick.get_absolute_tick, abs_zero] at h
  rw [normalizeLoop_zero_diverges (1000 * ((4 : ℕ) : ℚ)) (by norm_num) fuel 0] at h
  simp at h

/-- Witness for C9 at a concrete input: `n = 4`, `draw_space = 100`. -/
theorem C9_terminates_witness :
    (1 ≤ 4 ∧ (0 : ℚ) < 100)
    ∧ ∃ fuel : ℕ, ((Tick.Automatic 4).get_absolute_tick fuel 100).isSome :=
  ⟨⟨by norm_num, by norm_num⟩, C9_terminates 4 100 (by norm_num) (by norm_num)⟩

/-- Claim C4: for `Automatic n` with `n ≥ 1` and `draw_space > 0`, whenever
`get_absolute_tick` returns a tick `t`, then `t = c * 10 ^ k` for some
`c ∈ {1, 2, 5, 25}` and integer `k` (possibly negative), and the resulting
tick count `draw_space / t` is at least `min n 4`. -/
theorem C4_nice_tick (n : ℕ) (d : ℚ) (fuel : ℕ) (t : ℚ)
    (hn : 1 ≤ n) (hd : 0 < d)
    (ht : (Tick.Automatic n).get_absolute_tick fuel d = some t) :
    (∃ c ∈ tick_options, ∃ k : ℤ, t = (c : ℚ) * 10 ^ k)
    ∧ ((Min.min n 4 : ℕ) : ℚ) ≤ d / t := by
  simp only [Tick.get_absolute_tick] at ht
  split at ht
  · exact absurd ht (by simp)
  rename_i d' s hnorm
  split at ht
  · exact absurd ht (by simp)
  rename_i best hbest
  obtain rfl : (best : ℚ) / 10 ^ s = t := by simpa using ht
  obtain ⟨hbound, k0, hs, hdk⟩ := normalizeLoop_sound _ fuel |d| 0 d' s hnorm
  have hk0 : k0 = s := by omega
  have hd' : d' = d * 10 ^ s := by
    rw [hdk, abs_of_pos hd, hk0]
  have hd'pos : 0 < d' := by
    rw [hd']
    positivity
  have hDle : 1000 * n ≤ ⌊d'⌋₊ := by
    apply Nat.le_floor
    push_cast
    exact hbound
  simp only [get_best_tick_from_big, MIN_NUMBER_OF_TICKS] at hbest
  rw [Option.map_eq_some'] at hbest
  obtain ⟨res, hres, hfst⟩ := hbest
  have hinit_min : Min.min n 4 ≤ ⌊d'⌋₊ / 1 := by
    simp only [Nat.div_one]
    calc Min.min n 4 ≤ 4 := min_le_right n 4
      _ ≤ 1000 * 1 := by norm_num
      _ ≤ 1000 * n := Nat.mul_le_mul_left 1000 hn
      _ ≤ ⌊d'⌋₊ := hDle
  obtain ⟨⟨c, hc, j, hcj⟩, hcount, hmin⟩ :=
    bestTickLoop_invariant n (Min.min n 4) ⌊d'⌋₊ (⌊d'⌋₊ + 1) ⌊d'⌋₊ 1 (1, ⌊d'⌋₊ / 1) res
      ⟨0, by simp, by simp⟩ ⟨1, by simp [tick_options], 0, by simp⟩ (by simp) hinit_min hres
  have hcpos : 0 < c := by
    rcases (by simpa [tick_options] using hc : c = 1 ∨ c = 2 ∨ c = 5 ∨ c = 25) with
      h | h | h | h <;> norm_num [h]
  have hbpos : 0 < res.1 := by
    rw [hcj]
    positivity
  have hbposQ : (0 : ℚ) < (res.1 : ℚ) := by exact_mod_cast hbpos
  constructor
  · refine ⟨c, hc, (j : ℤ) - (s : ℤ), ?_⟩
    rw [← hfst, hcj]
    push_cast
    rw [zpow_sub₀ (by norm_num : (10 : ℚ) ≠ 0), zpow_natCast, zpow_natCast]
    ring
  · have h1 : ((Min.min n 4 : ℕ) : ℚ) ≤ ((⌊d'⌋₊ / res.1 : ℕ) : ℚ) := by
      rw [hcount] at hmin
      exact_mod_cast hmin
    have h2 : ((⌊d'⌋₊ / res.1 : ℕ) : ℚ) ≤ (⌊d'⌋₊ : ℚ) / (res.1 : ℚ) := Nat.cast_div_le
    have h3 : (⌊d'⌋₊ : ℚ) ≤ d' := Nat.floor_le (le_of_lt hd'pos)
    have h4 : (⌊d'⌋₊ : ℚ) / (res.1 : ℚ) ≤ d' / (res.1 : ℚ) :=
      (div_le_div_iff_of_pos_right hbposQ).mpr h3
    have h5 : d / ((best : ℚ) / 10 ^ s) = d' / (res.1 : ℚ) := by
      rw [← hfst, div_div_eq_mul_div, hd']
    rw [h5]
    linarith

/-- Witness for C4 at a concrete input: `Automatic 5` with `draw_space = 100`
yields the tick 20 (from the nice tick 2000 = 2·10³ scaled back by 10⁻²),
and `100 / 20 = 5 ≥ min 5 4`. -/
theorem C4_nice_tick_witness :
    ((1 ≤ 5 ∧ (0 : ℚ) < 100)
      ∧ (Tick.Automatic 5).get_absolute_tick 10 100 = some 20)
    ∧ (∃ c ∈ tick_options, ∃ k : ℤ, (20 : ℚ) = (c : ℚ) * 10 ^ k)
    ∧ ((Min.min 5 4 : ℕ) : ℚ) ≤ 100 / 20 := by
  have hb : (1000 * ((5 : ℕ) : ℚ)) = 5000 := by norm_num
  have h1 : normalizeLoop (1000 * ((5 : ℕ) : ℚ)) 10 |(100 : ℚ)| 0 = some (10000, 2) := by
    rw [hb, show |(100 : ℚ)| = 100 from by norm_num,
      show (10 : ℕ) = 9 + 1 from rfl, normalizeLoop_step _ _ _ _ (by norm_num),
      show (9 : ℕ) = 8 + 1 from rfl, normalizeLoop_step _ _ _ _ (by norm_num),
      normalizeLoop_done _ _ _ _ (by norm_num)]
    norm_num
  have h2 : get_best_tick_from_big 10000 5 = some 2000 := by decide
  have ht : (Tick.Automatic 5).get_absolute_tick 10 100 = some 20 := by
    simp only [Tick.get_absolute_tick, h1]
    rw [show ⌊(10000 : ℚ)⌋₊ = 10000 from Nat.floor_ofNat 10000, h2]
    norm_num
  exact ⟨⟨⟨by norm_num, by norm_num⟩, ht⟩,
    C4_nice_tick 5 100 10 20 (by norm_num) (by norm_num) ht⟩

/-! ## Label-formatter lemmas -/

/-- Evaluation rule for `roundHalfEven` when the value rounds down. -/
lemma roundHalfEven_int (q : ℚ) (z : ℤ) (hfloor : ⌊q⌋ = z) (hfrac : q - z < 1/2) :
    roundHalfEven q = z := by
  simp only [roundHalfEven, hfloor]
  rw [if_pos hfrac]

/-- Evaluation rule for `formatFixed` once the rounded numerator is known. -/
lemma formatFixed_eval (q : ℚ) (digits m : ℕ)
    (h : roundHalfEven (q * 10 ^ digits) = (m : ℤ)) :
    formatFixed q digits
      = toString (m / 10 ^ digits) ++ "." ++ padZeros digits (toString (m % 10 ^ digits)) := by
  simp only [formatFixed, h, Int.toNat_natCast]

lemma print_float_12345 : Axis.print_float 12345 = "1.23e4" := by
  have hlog : floorLog10 (12345 : ℚ) = 4 := by
    rw [floorLog10, if_pos (by norm_num : (1 : ℚ) ≤ 12345),
      show ⌊(12345 : ℚ)⌋₊ = 12345 from by norm_num]
    decide
  simp only [Axis.print_float]
  rw [show |(12345 : ℚ)| = 12345 from by norm_num,
    if_neg (by norm_num : ¬ (12345 : ℚ) < 0),
    if_pos (by norm_num :
      (10000 : ℚ) ≤ 12345 ∨ ((1 : ℚ)/1000000 ≤ 12345 ∧ (12345 : ℚ) ≤ 1/10000)),
    hlog, show (12345 : ℚ) / (10 : ℚ) ^ (4 : ℤ) = 2469/2000 from by norm_num,
    formatFixed_eval (2469/2000) 2 123
      (roundHalfEven_int _ _ (Int.floor_eq_iff.mpr (by norm_num)) (by norm_num))]
  decide

lemma print_float_small : Axis.print_float (1/20000) = "5.00e-5" := by
  have hlog : floorLog10 (1/20000 : ℚ) = -5 := by
    rw [floorLog10, if_neg (by norm_num),
      show ((1/20000 : ℚ))⁻¹ = 20000 from by norm_num,
      show ⌈(20000 : ℚ)⌉₊ = 20000 from by norm_num]
    decide
  simp only [Axis.print_float]
  rw [show |(1/20000 : ℚ)| = 1/20000 from by norm_num,
    if_neg (by norm_num : ¬ (1/20000 : ℚ) < 0),
    if_pos (by norm_num :
      (10000 : ℚ) ≤ 1/20000 ∨ ((1 : ℚ)/1000000 ≤ 1/20000 ∧ (1/20000 : ℚ) ≤ 1/10000)),
    hlog, show (1/20000 : ℚ) / (10 : ℚ) ^ (-5 : ℤ) = 5 from by norm_num,
    formatFixed_eval 5 2 500
      (roundHalfEven_int _ _ (Int.floor_eq_iff.mpr (by norm_num)) (by norm_num))]
  decide

lemma print_float_pi : Axis.print_float (314159/100000) = "3.141" := by
  simp only [Axis.print_float]
  rw [show |(314159/100000 : ℚ)| = 314159/100000 from by norm_num,
    if_neg (by norm_num : ¬ (314159/100000 : ℚ) < 0),
    if_neg (by norm_num : ¬ ((10000 : ℚ) ≤ 314159/100000
      ∨ ((1 : ℚ)/1000000 ≤ 314159/100000 ∧ (314159/100000 : ℚ) ≤ 1/10000))),
    if_neg (by norm_num : ¬ (314159/100000 : ℚ) < 1/1000000),
    formatFixed_eval (314159/100000) 6 3141590
      (roundHalfEven_int _ _ (Int.floor_eq_iff.mpr (by norm_num)) (by norm_num))]
  decide

lemma print_float_boundary : Axis.print_float (1/10000) = "1.00e-4" := by
  have hlog : floorLog10 (1/10000 : ℚ) = -4 := by
    rw [floorLog10, if_neg (by norm_num),
      show ((1/10000 : ℚ))⁻¹ = 10000 from by norm_num,
      show ⌈(10000 : ℚ)⌉₊ = 10000 from by norm_num]
    decide
  simp only [Axis.print_float]
  rw [show |(1/10000 : ℚ)| = 1/10000 from by norm_num,
    if_neg (by norm_num : ¬ (1/10000 : ℚ) < 0),
    if_pos (by norm_num :
      (10000 : ℚ) ≤ 1/10000 ∨ ((1 : ℚ)/1000000 ≤ 1/10000 ∧ (1/10000 : ℚ) ≤ 1/10000)),
    hlog, show (1/10000 : ℚ) / (10 : ℚ) ^ (-4 : ℤ) = 1 from by norm_num,
    formatFixed_eval 1 2 100
      (roundHalfEven_int _ _ (Int.floor_eq_iff.mpr (by norm_num)) (by norm_num))]
  decide

lemma claimed_boundary : format_number_claimed (1/10000) = "0.000" := by
  simp only [format_number_claimed]
  rw [show |(1/10000 : ℚ)| = 1/10000 from by norm_num,
    if_neg (by norm_num : ¬ (1/10000 : ℚ) < 0),
    if_neg (by norm_num : ¬ ((10000 : ℚ) ≤ 1/10000
      ∨ ((1 : ℚ)/1000000 ≤ 1/10000 ∧ (1/10000 : ℚ) < 1/10000))),
    if_neg (by norm_num : ¬ (1/10000 : ℚ) < 1/1000000),
    formatFixed_eval (1/10000) 6 100
      (roundHalfEven_int _ _ (Int.floor_eq_iff.mpr (by norm_num)) (by norm_num))]
  decide

/-- Claim C5 (amended: the scientific-notation region's upper boundary is
inclusive, `0.000001 ≤ m ≤ 0.0001`, not `m < 0.0001`): for every finite input
the label formatter agrees with the spec's rule — `"0"` below `0.000001`,
scientific notation (mantissa with 2 fraction digits, `e`, exponent
`⌊log10 m⌋`) exactly when `m ≥ 10000` or `0.000001 ≤ m ≤ 0.0001`, and
otherwise fixed-point with 6 fractional digits truncated to the first 5
characters with a trailing decimal point stripped. -/
theorem C5_label_format (x : ℚ) : Axis.print_float x = format_number_spec x := by
  simp only [Axis.print_float, format_number_spec]
  split_ifs with h1 h2 h3 <;> try rfl
  all_goals
    rcases h1 with h | ⟨h, -⟩ <;> linarith

/-- Claim C5, counterexample: at the boundary input `x = 0.0001` the code
takes the (inclusive) scientific branch and prints `"1.00e-4"`, while the
claim's strict rule `m < 0.0001` dictates the fixed-point branch, which would
print `"0.000"`. -/
theorem C5_counterexample :
    Axis.print_float (1/10000) = "1.00e-4"
    ∧ format_number_claimed (1/10000) = "0.000"
    ∧ ("1.00e-4" : String) ≠ "0.000" :=
  ⟨print_float_boundary, claimed_boundary, by decide⟩

/-- Claim C6 (amended: `format_number(3.14159)` yields `"3.141"` — the first
5 characters of `"3.141590"` — not `"3.14"`): `format_number(12345)` is
`"1.23e4"` (mantissa `"1.23"`, exponent 4), `format_number(0.00005)` is the
scientific string `"5.00e-5"`, and `format_number(3.14159)` is the truncated
fixed-point string `"3.141"`. -/
theorem C6_format_scenarios :
    Axis.print_float 12345 = "1.23e4"
    ∧ Axis.print_float (1/20000) = "5.00e-5"
    ∧ Axis.print_float (314159/100000) = "3.141" :=
  ⟨print_float_12345, print_float_small, print_float_pi⟩

/-- Claim C6, counterexample: `format_number(3.14159)` is `"3.141"`, not the
claimed `"3.14"` (the truncation keeps 5 characters, and the fifth is a
digit, not the decimal point). -/
theorem C6_counterexample :
    Axis.print_float (314159/100000) = "3.141" ∧ ("3.141" : String) ≠ "3.14" :=
  ⟨print_float_pi, by decide⟩
